import Mathlib

/-!
Verification of osquery INotifyEventPublisher (src/osquery/events/linux/inotify.cpp)
against its natural-language specification.

The C++ state is shallowly embedded: std::map containers become association
lists (first entry with a matching key wins, insertion replaces all entries
with the key, mirroring std::map unique-key semantics), machine integers
become Nat/Int, and kernel or filesystem calls become explicit parameters or
returned effect values.
-/

set_option autoImplicit false

namespace INotify

section AssocOps

variable {α : Type} {β : Type} [DecidableEq α]

/-- Lookup in an association list: the first pair with the given key wins
(std::map has unique keys, so this models std::map::find / ::at). -/
def lookupA (k : α) : List (α × β) → Option β
  | [] => none
  | (k1, v) :: rest => if k = k1 then some v else lookupA k rest

/-- Erase every pair with the given key (models std::map::erase, which removes
the unique entry with the key). -/
def eraseA (k : α) : List (α × β) → List (α × β)
  | [] => []
  | (k1, v) :: rest => if k1 = k then eraseA k rest else (k1, v) :: eraseA k rest

/-- Number of entries with the given key. -/
def countA (k : α) : List (α × β) → Nat
  | [] => 0
  | (k1, _) :: rest => (if k1 = k then 1 else 0) + countA k rest

/-- Insert with replacement (models map[k] = v on std::map). -/
def insertA (k : α) (v : β) (l : List (α × β)) : List (α × β) :=
  (k, v) :: eraseA k l

@[simp] theorem lookupA_nil (k : α) : lookupA (β := β) k [] = none := rfl

@[simp] theorem lookupA_cons (k k1 : α) (v : β) (rest : List (α × β)) :
    lookupA k ((k1, v) :: rest) = if k = k1 then some v else lookupA k rest := rfl

@[simp] theorem lookupA_eraseA_self (k : α) (l : List (α × β)) :
    lookupA k (eraseA k l) = none := by
  induction l with
  | nil => rfl
  | cons p rest ih =>
    obtain ⟨k1, v⟩ := p
    by_cases h : k1 = k
    · simpa [eraseA, h] using ih
    · simpa [eraseA, h, Ne.symm h] using ih

theorem lookupA_eraseA_ne {k k1 : α} (l : List (α × β)) (h : k1 ≠ k) :
    lookupA k1 (eraseA k l) = lookupA k1 l := by
  induction l with
  | nil => rfl
  | cons p rest ih =>
    obtain ⟨k2, v⟩ := p
    by_cases h2 : k2 = k
    · subst h2
      simp [eraseA, h, ih]
    · by_cases h3 : k1 = k2
      · simp [eraseA, h2, h3]
      · simp [eraseA, h2, h3, ih]

@[simp] theorem countA_eraseA_self (k : α) (l : List (α × β)) :
    countA k (eraseA k l) = 0 := by
  induction l with
  | nil => rfl
  | cons p rest ih =>
    obtain ⟨k1, v⟩ := p
    by_cases h : k1 = k
    · simpa [eraseA, h] using ih
    · simpa [eraseA, countA, h] using ih

@[simp] theorem countA_insertA_self (k : α) (v : β) (l : List (α × β)) :
    countA k (insertA k v l) = 1 := by
  simp [insertA, countA]

@[simp] theorem lookupA_insertA_self (k : α) (v : β) (l : List (α × β)) :
    lookupA k (insertA k v l) = some v := by
  simp [insertA]

theorem lookupA_insertA_ne {k k1 : α} (v : β) (l : List (α × β)) (h : k1 ≠ k) :
    lookupA k1 (insertA k v l) = lookupA k1 l := by
  simp [insertA, h, lookupA_eraseA_ne l h]

end AssocOps

/-! ### Overflow handling (inotify.cpp lines 203-214)

`handleOverflow` owns two counters declared in inotify.h: the current event
capacity multiplier `inotify_events_` and the timestamp `last_overflow_` of
the last reported overflow (-1 when none was reported).  `getUnixTime()` is
passed in as `now`.  The `logged` flag records whether the branch taken emits
a VLOG line. -/

/-- kINotifyMaxEvents from inotify.cpp line 30. -/
def kINotifyMaxEvents : Nat := 512

/-- State of the overflow counters of the Event Reader. -/
structure OverflowState where
  inotify_events : Nat
  last_overflow : Int
  deriving DecidableEq, Repr

/-- Result of one call to handleOverflow. -/
structure OverflowResult where
  state : OverflowState
  logged : Bool
  deriving DecidableEq, Repr

/-- INotifyEventPublisher::handleOverflow, inotify.cpp lines 203-214, with the
current unix time passed explicitly. -/
def handleOverflow (st : OverflowState) (now : Int) : OverflowResult :=
  if st.inotify_events < kINotifyMaxEvents then
    -- VLOG: "inotify was overflown: increasing scratch buffer"; exponential increment
    { state := { st with inotify_events := st.inotify_events * 2 }, logged := true }
  else if st.last_overflow ≠ -1 ∧ now - st.last_overflow < 60 then
    { state := st, logged := false }
  else
    -- VLOG: "inotify was overflown"
    { state := { st with last_overflow := now }, logged := true }

/-! ### tearDown (inotify.cpp lines 190-201) -/

/-- The resources owned by the publisher that tearDown releases: the inotify
kernel handle and whether the scratch decode buffer is currently allocated
(scratch_ != nullptr). -/
structure PubResources where
  inotify_handle : Int
  scratch : Bool
  deriving DecidableEq, Repr

/-- The release effects of one tearDown call: the handle passed to ::close,
if close was called, and whether free() was called on the scratch buffer. -/
structure TearDownEffects where
  closedHandle : Option Int
  freedScratch : Bool
  deriving DecidableEq, Repr

/-- INotifyEventPublisher::tearDown, inotify.cpp lines 190-201: close the
handle when it is valid (> -1) and set it to -1; free the scratch buffer when
non-null and set it to null. -/
def tearDown (s : PubResources) : PubResources × TearDownEffects :=
  ({ inotify_handle := -1, scratch := false },
   { closedHandle := if s.inotify_handle > -1 then some s.inotify_handle else none,
     freedScratch := s.scratch })

/-! ### Path string helpers

The source manipulates paths with std::string::rfind, std::string::substr,
boost::filesystem parent_path and filename.  These are embedded on the
character list of the path. -/

/-- Characters strictly before the last slash of the list; empty when no slash
is present. -/
def beforeLastSlash : List Char → List Char
  | [] => []
  | c :: rest => if ('/' : Char) ∈ rest then c :: beforeLastSlash rest else []

/-- Characters strictly after the last slash of the list; the whole list when
no slash is present. -/
def afterLastSlash : List Char → List Char
  | [] => []
  | c :: rest =>
    if ('/' : Char) ∈ rest then afterLastSlash rest
    else if c = '/' then rest else c :: rest

/-- ec->path.substr(0, ec->path.rfind('/')) from shouldFire (inotify.cpp line
327): the characters before the last slash, or the whole string when rfind
returns npos (so substr copies the whole string). -/
def containingDir (s : String) : String :=
  if ('/' : Char) ∈ s.data then ⟨beforeLastSlash s.data⟩ else s

/-- Strip the trailing run of separator characters (every trailing slash). -/
def dropTrailingSlash (l : List Char) : List Char :=
  (l.reverse.dropWhile (fun x => decide (x = '/'))).reverse

/-- fs::path(p).parent_path().string() for POSIX paths without the
double-slash root-name form: drop the filename (the characters after the
last separator), then strip the separator run before it; when the directory
part is only separators, the parent is the root-directory string when a
filename follows (parent_path of a root-level file like "/f" is "/") and
empty otherwise (parent_path of "/" is ""); a path without any separator has
an empty parent.  This reproduces the boost behaviors parent_path("/f") =
"/", parent_path("a//b") = "a", parent_path("/a/b/") = "/a/b".  The POSIX
"//name" network root-name form is outside the embedding: the publisher only
receives ordinary OS paths from configuration. -/
def parentPathB (l : List Char) : List Char :=
  if ('/' : Char) ∈ l then
    if (dropTrailingSlash (beforeLastSlash l)).isEmpty then
      if (afterLastSlash l).isEmpty then [] else ['/']
    else dropTrailingSlash (beforeLastSlash l)
  else []

/-- fs::path(p).parent_path().string() + '/', as used at inotify.cpp lines
106 and 457.  Note the doubling effect on root-level files: for "/f" the
parent path is "/" and the appended separator yields "//". -/
def parentSlash (s : String) : String :=
  ⟨parentPathB s.data ++ ['/']⟩

/-- fs::path(p).filename().string(), as used at inotify.cpp line 105: the
characters after the last slash (for a path with no slash, the whole path). -/
def filenameOf (s : String) : String :=
  ⟨afterLastSlash s.data⟩

/-- path.find of a star is not npos: a star character occurs in the list. -/
def hasStar (l : List Char) : Bool :=
  decide (('*' : Char) ∈ l)

/-- Presence test for the two-star recursive marker (path.find of two stars
is not npos): true when some position starts two consecutive star
characters. -/
def hasStarStar : List Char → Bool
  | [] => false
  | a :: rest => (a = '*' && rest.head? = some '*') || hasStarStar rest

/-- Index of the first occurrence of the two-star recursive marker
(std::string::find("**")), none when absent. -/
def starStarIdx : List Char → Option Nat
  | [] => none
  | a :: rest =>
    if a = '*' && rest.head? = some '*' then some 0
    else (starStarIdx rest).map (· + 1)

/-! ### Kernel mask constants (linux/inotify.h values used by the source) -/

def IN_ACCESS : Nat := 1
def IN_MODIFY : Nat := 2
def IN_ATTRIB : Nat := 4
def IN_CLOSE_WRITE : Nat := 8
def IN_OPEN : Nat := 32
def IN_MOVED_FROM : Nat := 64
def IN_MOVED_TO : Nat := 128
def IN_CREATE : Nat := 256
def IN_DELETE : Nat := 512
def IN_DELETE_SELF : Nat := 1024
def IN_MOVE_SELF : Nat := 2048
def IN_Q_OVERFLOW : Nat := 16384
def IN_IGNORED : Nat := 32768

/-- kMaskActions, inotify.cpp lines 36-46.  The source declares the entries in
the order IN_ACCESS, IN_ATTRIB, IN_CLOSE_WRITE, IN_CREATE, IN_DELETE,
IN_MODIFY, IN_MOVED_FROM, IN_MOVED_TO, IN_OPEN, but the container is a
std::map keyed by the integer mask bit, so iteration (the range-for at lines
296-301) visits the entries in ascending key order, which is the order of
this list. -/
def kMaskActions : List (Nat × String) :=
  [(IN_ACCESS, "ACCESSED"),
   (IN_MODIFY, "UPDATED"),
   (IN_ATTRIB, "ATTRIBUTES_MODIFIED"),
   (IN_CLOSE_WRITE, "UPDATED"),
   (IN_OPEN, "OPENED"),
   (IN_MOVED_FROM, "MOVED_FROM"),
   (IN_MOVED_TO, "MOVED_TO"),
   (IN_CREATE, "CREATED"),
   (IN_DELETE, "DELETED")]

/-- The action-classification loop of createEventContextFrom (inotify.cpp
lines 296-301): the first table entry whose bit overlaps the record mask
wins; when none matches the action stays the empty string. -/
def classifyMask : List (Nat × String) → Nat → String
  | [], _ => ""
  | (bit, act) :: rest, m => if m &&& bit ≠ 0 then act else classifyMask rest m

/-! ### Watch table state

descriptor_inosubctx_, the per-subscription descriptor_paths_ maps and (in
sanity-check mode) path_descriptors_ are declared in inotify.h.  Subscription
contexts are identified by a Nat id; the per-subscription descriptor_paths_
maps are flattened into one association list keyed by (subscription id,
descriptor). -/

structure WatchTables where
  /-- descriptor_inosubctx_: watch descriptor to owning subscription context. -/
  descSub : List (Int × Nat)
  /-- The union of every subscription context member descriptor_paths_,
  keyed by (subscription id, watch descriptor). -/
  descPath : List ((Nat × Int) × String)
  /-- path_descriptors_: path to watch descriptor, maintained only when the
  sanity-check flag is set. -/
  pathDesc : List (String × Int)
  deriving DecidableEq, Repr

/-- One decoded struct inotify_event: watch descriptor, mask, declared name
length and name bytes. -/
structure InEvent where
  wd : Int
  mask : Nat
  len : Nat
  name : String
  deriving DecidableEq, Repr

/-- INotifyEventContext as filled by createEventContextFrom: derived path,
normalized action, back-reference to the owning subscription context (by id),
and the retained raw record mask (ec->event->mask). -/
structure EventCtx where
  path : String
  action : String
  isub_ctx : Option Nat
  rawMask : Nat
  deriving DecidableEq, Repr

/-- INotifyEventPublisher::createEventContextFrom, inotify.cpp lines 273-303.
When the descriptor is absent from descriptor_inosubctx_ the blank context is
returned before path reconstruction and action classification (so path and
action stay empty and no subscription is referenced).  Otherwise the path is
the watched path of the descriptor (descriptor_paths_.at(wd), looked up with
default "" since the entry is present whenever the tables are coherent), with
the record name appended when len > 1, and the action is the first matching
kMaskActions entry. -/
def createEventContextFrom (st : WatchTables) (ev : InEvent) : EventCtx :=
  match lookupA ev.wd st.descSub with
  | none => { path := "", action := "", isub_ctx := none, rawMask := ev.mask }
  | some sub =>
    let base := (lookupA (sub, ev.wd) st.descPath).getD ""
    { path := if ev.len > 1 then base ++ ev.name else base,
      action := classifyMask kMaskActions ev.mask,
      isub_ctx := some sub,
      rawMask := ev.mask }

/-! ### removeMonitor (inotify.cpp lines 386-413) -/

/-- Result of one removeMonitor call: the updated tables, the boolean return
value, and whether ::inotify_rm_watch was invoked on the kernel handle. -/
structure RmResult where
  tables : WatchTables
  returned : Bool
  rmWatchCalled : Bool
  deriving DecidableEq, Repr

/-- INotifyEventPublisher::removeMonitor, inotify.cpp lines 386-413, with the
sanity-check flag passed explicitly.  An unknown descriptor returns false
without touching the kernel.  Otherwise the descriptor_inosubctx_ entry is
dropped, in sanity-check mode the path_descriptors_ entry of the watched path
is dropped, the owning subscription descriptor_paths_ entry is dropped unless
batch_del, and ::inotify_rm_watch is called exactly when force is set. -/
def removeMonitor (st : WatchTables) (strict : Bool) (watch : Int)
    (force : Bool) (batch_del : Bool) : RmResult :=
  match lookupA watch st.descSub with
  | none => { tables := st, returned := false, rmWatchCalled := false }
  | some isc =>
    let watchedPath := (lookupA (isc, watch) st.descPath).getD ""
    { tables :=
        { descSub := eraseA watch st.descSub,
          descPath := if batch_del then st.descPath else eraseA (isc, watch) st.descPath,
          pathDesc := if strict then eraseA watchedPath st.pathDesc else st.pathDesc },
      returned := true,
      rmWatchCalled := force }

/-! ### addMonitor table update (inotify.cpp lines 338-369)

The kernel call ::inotify_add_watch is embedded as the returned descriptor
`watch` passed in as a parameter.  The recursive child expansion at lines
371-381 repeats this per-child step for each subdirectory with its own kernel
descriptor and is outside the table-update critical section modelled here. -/

/-- The critical-section body of INotifyEventPublisher::addMonitor, lines
343-369: fail when a hard watch was demanded and the kernel refused; retire
every table entry of an already-known returned descriptor (the old owner
descriptor_paths_ entry, in sanity-check mode the old watched path entry in
path_descriptors_, and the descriptor_inosubctx_ entry); then record the new
descriptor-to-path and descriptor-to-subscription entries and, in
sanity-check mode, the path-to-descriptor entry. -/
def addMonitorStep (st : WatchTables) (strict : Bool) (watch : Int)
    (path : String) (isc : Nat) (add_watch : Bool) : WatchTables × Bool :=
  if add_watch ∧ watch = -1 then (st, false)
  else
    let st1 :=
      match lookupA watch st.descSub with
      | none => st
      | some ino_sc =>
        let watched_path := (lookupA (ino_sc, watch) st.descPath).getD ""
        { descSub := eraseA watch st.descSub,
          descPath := eraseA (ino_sc, watch) st.descPath,
          pathDesc := if strict then eraseA watched_path st.pathDesc else st.pathDesc }
    ({ descSub := insertA watch isc st1.descSub,
       descPath := insertA (isc, watch) path st1.descPath,
       pathDesc := if strict then insertA path watch st1.pathDesc else st1.pathDesc },
     true)

/-! ### The per-record dispatch of run (inotify.cpp lines 245-268) -/

/-- What the run loop does with one decoded record. -/
inductive RecAction where
  /-- The record signalled IN_Q_OVERFLOW and handleOverflow ran. -/
  | overflowHandled : RecAction
  /-- One of the invalidation bits was set and removeMonitor ran; the flag
  records whether ::inotify_rm_watch was invoked. -/
  | monitorRemoved : Bool → RecAction
  /-- A non-empty action was classified and the event context was fired. -/
  | fired : EventCtx → RecAction
  /-- The decoded context had an empty action and was skipped silently. -/
  | droppedNoAction : RecAction
  deriving DecidableEq, Repr

/-- The branch ladder of the record walk in INotifyEventPublisher::run,
inotify.cpp lines 245-268: overflow, IN_IGNORED (removeMonitor without
kernel call), IN_MOVE_SELF (removeMonitor with force = true), IN_DELETE_SELF
(removeMonitor without kernel call), else decode and fire when the action is
non-empty. -/
def runHandleRecord (st : WatchTables) (strict : Bool) (ev : InEvent) :
    WatchTables × RecAction :=
  if ev.mask &&& IN_Q_OVERFLOW ≠ 0 then (st, .overflowHandled)
  else if ev.mask &&& IN_IGNORED ≠ 0 then
    let r := removeMonitor st strict ev.wd false false
    (r.tables, .monitorRemoved r.rmWatchCalled)
  else if ev.mask &&& IN_MOVE_SELF ≠ 0 then
    let r := removeMonitor st strict ev.wd true false
    (r.tables, .monitorRemoved r.rmWatchCalled)
  else if ev.mask &&& IN_DELETE_SELF ≠ 0 then
    let r := removeMonitor st strict ev.wd false false
    (r.tables, .monitorRemoved r.rmWatchCalled)
  else
    let ec := createEventContextFrom st ev
    if ec.action ≠ "" then (st, .fired ec) else (st, .droppedNoAction)

/-! ### Subscription contexts and shouldFire (inotify.cpp lines 305-336) -/

/-- The INotifySubscriptionContext fields the embedded code reads or writes:
the path pattern, the requested event mask, the recursive flag and the
recursive_match flag.  Context identity (the sc.get() pointer comparison at
line 307) is a Nat id carried separately. -/
structure SubCtx where
  path : String
  mask : Nat
  recursive : Bool
  recursive_match : Bool
  deriving DecidableEq, Repr

/-- Modelled from the spec: the type of exclude_paths_ and the semantics of
its find member are declared in inotify.h, which is not part of the sources.
Per the spec the Exclude Set is a set of path-pattern strings rebuilt from
configuration and checked against both the containing directory and the full
path of an event, with a drop exactly on membership; it is embedded as a
list of strings whose find is exact membership. -/
def excludeFind (excl : List String) (p : String) : Bool :=
  decide (p ∈ excl)

/-- INotifyEventPublisher::shouldFire, inotify.cpp lines 305-336, as the fired
or dropped decision.  scId is the identity of the subscription context sc and
ec.isub_ctx the identity stored in the event context; the lazy recursive
addMonitor at lines 317-324 is a side effect that does not alter the decision
and is not part of the returned value. -/
def shouldFire (excl : List String) (scId : Nat) (sc : SubCtx) (ec : EventCtx) : Bool :=
  if ec.isub_ctx ≠ some scId then false
  else if sc.mask ≠ 0 ∧ ec.rawMask &&& sc.mask = 0 then false
  else
    let path := containingDir ec.path
    if excl ≠ [] ∧ (excludeFind excl path || excludeFind excl ec.path) then false
    else true

/-! ### isPathMonitored (inotify.cpp lines 448-464) -/

/-- INotifyEventPublisher::isPathMonitored, inotify.cpp lines 448-464, with
the isDirectory(path).ok() oracle passed as a function.  A non-directory path
is monitored when it has its own path_descriptors_ entry or its parent
directory (with trailing slash) has one; a directory path is monitored when
the path itself has one. -/
def isPathMonitored (isDir : String → Bool) (pathDesc : List (String × Int))
    (path : String) : Bool :=
  if !(isDir path) then
    if (lookupA path pathDesc).isSome then true
    else (lookupA (parentSlash path) pathDesc).isSome
  else (lookupA path pathDesc).isSome

/-- The spec reading of isMonitored: true if path is itself a tracked entry,
or if path is not a directory and its containing-directory lookup key (the
boost parent path of the file with a trailing slash appended, the exact
string the source constructs at line 457) is tracked. -/
def specIsMonitored (isDir : String → Bool) (pathDesc : List (String × Int))
    (path : String) : Prop :=
  (lookupA path pathDesc).isSome = true
  ∨ (isDir path = false ∧ (lookupA (parentSlash path) pathDesc).isSome = true)

/-! ### monitorSubscription (inotify.cpp lines 92-128) -/

/-- The filesystem and glob collaborators of monitorSubscription:
isDirectory and resolveFilePattern. -/
structure Env where
  isDir : String → Bool
  resolvePattern : String → List String

/-- Outcome of one monitorSubscription call: the updated subscription
context, the concrete paths handed to needMonitoring, and the pattern handed
to resolveFilePattern when the interior-wildcard branch ran. -/
structure MonResult where
  sc : SubCtx
  requests : List String
  resolved : Option String
  deriving Repr

/-- Lines 94-99 of monitorSubscription: when the path contains the two-star
recursive marker, set the recursive flag and replace the path by the prefix
strictly before the first occurrence (substr(0, find position)). -/
def stripRecursiveMarker (sc : SubCtx) : SubCtx :=
  match starStarIdx sc.path.data with
  | some i => { sc with recursive := true, path := ⟨sc.path.data.take i⟩ }
  | none => sc

/-- Lines 122-127 of monitorSubscription: append a trailing slash to both the
stored path and the discovered path when the discovered path is a directory
not already ending in a slash, then request monitoring of the discovered
path. -/
def monFinish (env : Env) (sc : SubCtx) (discovered : String) : MonResult :=
  if env.isDir discovered && !(discovered.data.getLast? = some '/') then
    { sc := { sc with path := sc.path ++ "/" },
      requests := [discovered ++ "/"],
      resolved := none }
  else
    { sc := sc, requests := [discovered], resolved := none }

/-- INotifyEventPublisher::monitorSubscription, inotify.cpp lines 92-128.
After the recursive-marker strip, a pattern still holding a star has its
discovered path truncated to the parent directory when the star lies in the
filename; a star remaining in the discovered path (interior wildcard) is
expanded through resolveFilePattern with one needMonitoring request per
match and an early return; otherwise the trailing-slash normalization and the
single needMonitoring request follow. -/
def monitorSubscription (env : Env) (sc0 : SubCtx) : MonResult :=
  let sc := stripRecursiveMarker sc0
  let discovered := sc.path
  if hasStar sc.path.data then
    let discovered1 :=
      if hasStar (filenameOf sc.path).data then parentSlash sc.path else discovered
    if hasStar discovered1.data then
      { sc := { sc with recursive_match := sc.recursive },
        requests := env.resolvePattern discovered1,
        resolved := some discovered1 }
    else
      monFinish env sc discovered1
  else
    monFinish env sc discovered

/-! ### Supporting lemmas on the string helpers -/

theorem head?_take (j : Nat) (l : List Char) :
    (l.take j).head? = if j = 0 then none else l.head? := by
  cases j <;> cases l <;> simp

theorem starStarIdx_take (l : List Char) :
    ∀ i : Nat, starStarIdx l = some i → hasStarStar (l.take i) = false := by
  induction l with
  | nil => intro i h; simp [starStarIdx] at h
  | cons a rest ih =>
    intro i h
    unfold starStarIdx at h
    by_cases hc : (a = '*' && rest.head? = some '*') = true
    · rw [if_pos hc] at h
      cases h
      simp [hasStarStar]
    · rw [if_neg hc] at h
      cases hj : starStarIdx rest with
      | none => rw [hj] at h; simp at h
      | some j =>
        rw [hj] at h
        simp at h
        subst h
        have htail := ih j hj
        unfold hasStarStar
        rw [List.take_succ_cons]
        simp only [Bool.or_eq_false_iff]
        refine ⟨?_, htail⟩
        simp only [Bool.and_eq_false_iff]
        rcases Nat.eq_zero_or_pos j with hj0 | hjpos
        · subst hj0
          right
          simp [head?_take]
        · simp only [Bool.and_eq_true, decide_eq_true_eq] at hc
          rw [head?_take]
          rw [if_neg (Nat.pos_iff_ne_zero.mp hjpos)]
          by_cases ha : a = '*'
          · right
            simp only [decide_eq_false_iff_not]
            intro hhd
            exact hc ⟨by simp [ha], by simp [hhd]⟩
          · left; simp [ha]

theorem starStarIdx_none_of_not (l : List Char) (h : hasStarStar l = false) :
    starStarIdx l = none := by
  induction l with
  | nil => rfl
  | cons a rest ih =>
    unfold hasStarStar at h
    simp only [Bool.or_eq_false_iff] at h
    unfold starStarIdx
    rw [if_neg (by simp [h.1]), ih h.2]
    rfl

theorem hasStarStar_append_nonstar (l : List Char) (c : Char) (hc : c ≠ '*') :
    hasStarStar (l ++ [c]) = hasStarStar l := by
  induction l with
  | nil => simp [hasStarStar, hc]
  | cons a rest ih =>
    rw [List.cons_append]
    unfold hasStarStar
    cases rest with
    | nil => simp [hasStarStar, hc]
    | cons b rest2 => simp only [List.cons_append, List.head?_cons] at ih ⊢; rw [ih]

theorem beforeAfter_split (l : List Char) (h : ('/' : Char) ∈ l) :
    l = beforeLastSlash l ++ '/' :: afterLastSlash l := by
  induction l with
  | nil => cases h
  | cons c rest ih =>
    by_cases hr : ('/' : Char) ∈ rest
    · unfold beforeLastSlash afterLastSlash
      rw [if_pos hr, if_pos hr, List.cons_append]
      exact congrArg (c :: ·) (ih hr)
    · have hc : c = '/' := by
        rcases List.mem_cons.mp h with h1 | h1
        · exact h1.symm
        · exact absurd h1 hr
      subst hc
      unfold beforeLastSlash afterLastSlash
      simp [hr]

theorem afterLastSlash_of_no_slash (l : List Char) (h : ('/' : Char) ∉ l) :
    afterLastSlash l = l := by
  cases l with
  | nil => rfl
  | cons c rest =>
    have hr : ('/' : Char) ∉ rest := fun hmem => h (List.mem_cons_of_mem c hmem)
    have hc : c ≠ '/' := fun hcc => h (hcc ▸ List.mem_cons_self c rest)
    unfold afterLastSlash
    rw [if_neg hr, if_neg (fun hcc => hc hcc)]

theorem getLast?_append_one {α : Type} (l : List α) (c : α) :
    (l ++ [c]).getLast? = some c := by
  induction l with
  | nil => rfl
  | cons a rest ih =>
    rw [List.cons_append]
    cases hr : rest ++ [c] with
    | nil => exact absurd hr (by simp)
    | cons b tail => rw [List.getLast?_cons_cons, ← hr, ih]

theorem mem_dropTrailingSlash {c : Char} {l : List Char} (hc : c ≠ '/')
    (hm : c ∈ l) : c ∈ dropTrailingSlash l := by
  unfold dropTrailingSlash
  rw [List.mem_reverse]
  have hrev : c ∈ l.reverse := List.mem_reverse.mpr hm
  rw [← List.takeWhile_append_dropWhile (p := fun x => decide (x = '/'))
    (l := l.reverse)] at hrev
  rcases List.mem_append.mp hrev with hm1 | hm1
  · exact absurd (by simpa using List.mem_takeWhile_imp hm1) hc
  · exact hm1

theorem mem_parentPathB_of_mem_before {c : Char} (l : List Char)
    (hc : c ≠ '/') (hsl : ('/' : Char) ∈ l) (hm : c ∈ beforeLastSlash l) :
    c ∈ parentPathB l := by
  have hcore : c ∈ dropTrailingSlash (beforeLastSlash l) :=
    mem_dropTrailingSlash hc hm
  have hne : ¬ ((dropTrailingSlash (beforeLastSlash l)).isEmpty = true) := by
    intro hx
    rw [List.isEmpty_iff] at hx
    rw [hx] at hcore
    cases hcore
  unfold parentPathB
  rw [if_pos hsl, if_neg hne]
  exact hcore

/-! ### Claim theorems -/

/-- C10: tearDown is idempotent: a second tearDown yields the same final
state as the first (handle -1, buffer released), and the second call closes
no handle and frees no buffer. -/
theorem c10_tearDown_idempotent (s : PubResources) :
    (tearDown (tearDown s).1).1 = (tearDown s).1
    ∧ (tearDown s).1.inotify_handle = -1
    ∧ (tearDown s).1.scratch = false
    ∧ (tearDown (tearDown s).1).2.closedHandle = none
    ∧ (tearDown (tearDown s).1).2.freedScratch = false := by
  refine ⟨rfl, rfl, rfl, ?_, rfl⟩
  simp [tearDown]

/-- C4 counterexample: from the overflow-counter state with multiplier 300
(below the cap of 512), one overflow doubles the multiplier to 600, which is
above the cap, refuting the claim that the doubling never takes the
multiplier above the cap. -/
theorem c4_counterexample :
    (handleOverflow ⟨300, -1⟩ 0).state.inotify_events = 600
    ∧ ¬ (handleOverflow ⟨300, -1⟩ 0).state.inotify_events ≤ kINotifyMaxEvents := by
  constructor <;> decide

/-- C4 (amended): an overflow while the multiplier is below the cap of 512
doubles the multiplier and leaves the overflow timestamp unchanged, and the
doubled value stays at or below the cap whenever the old value was at most
half the cap (in particular for every power of two below the cap, the only
values reachable by repeated doubling); once the multiplier is at the cap, an
overflow within 60 seconds of a recorded last overflow produces no log entry
and changes nothing, while one with no recorded last overflow or at least 60
seconds after it is logged and records the new overflow timestamp. -/
theorem c4_overflow_handling (st : OverflowState) (now : Int) :
    (st.inotify_events < kINotifyMaxEvents →
      (handleOverflow st now).state.inotify_events = st.inotify_events * 2
      ∧ (handleOverflow st now).state.last_overflow = st.last_overflow
      ∧ (st.inotify_events ≤ 256 →
          (handleOverflow st now).state.inotify_events ≤ kINotifyMaxEvents))
    ∧ (¬ st.inotify_events < kINotifyMaxEvents → st.last_overflow ≠ -1 →
        now - st.last_overflow < 60 →
        (handleOverflow st now).logged = false ∧ (handleOverflow st now).state = st)
    ∧ (¬ st.inotify_events < kINotifyMaxEvents →
        (st.last_overflow = -1 ∨ 60 ≤ now - st.last_overflow) →
        (handleOverflow st now).logged = true
        ∧ (handleOverflow st now).state.last_overflow = now
        ∧ (handleOverflow st now).state.inotify_events = st.inotify_events) := by
  refine ⟨?_, ?_, ?_⟩
  · intro h
    rw [handleOverflow, if_pos h]
    refine ⟨rfl, rfl, ?_⟩
    intro h2
    simp only [kINotifyMaxEvents]
    omega
  · intro h h1 h2
    rw [handleOverflow, if_neg h, if_pos ⟨h1, h2⟩]
    exact ⟨rfl, rfl⟩
  · intro h h1
    have hcond : ¬ (st.last_overflow ≠ -1 ∧ now - st.last_overflow < 60) := by
      rcases h1 with h1 | h1 <;> omega
    rw [handleOverflow, if_neg h, if_neg hcond]
    exact ⟨rfl, rfl, rfl⟩

/-- C4 witness: at the cap (512) with a last overflow recorded at time 0, an
overflow at time 100 is logged and records timestamp 100. -/
theorem c4_overflow_handling_witness :
    (handleOverflow ⟨512, 0⟩ 100).logged = true
    ∧ (handleOverflow ⟨512, 0⟩ 100).state.last_overflow = 100 :=
  ⟨((c4_overflow_handling ⟨512, 0⟩ 100).2.2 (by decide) (Or.inr (by decide))).1,
   ((c4_overflow_handling ⟨512, 0⟩ 100).2.2 (by decide) (Or.inr (by decide))).2.1⟩

/-- C9: a record whose descriptor is absent from the watch table decodes to a
context with empty action and no owning subscription, and the run loop never
fires an event for it. -/
theorem c9_unknown_descriptor (st : WatchTables) (strict : Bool) (ev : InEvent)
    (h : lookupA ev.wd st.descSub = none) :
    (createEventContextFrom st ev).action = ""
    ∧ (createEventContextFrom st ev).isub_ctx = none
    ∧ ∀ ec : EventCtx, (runHandleRecord st strict ev).2 ≠ RecAction.fired ec := by
  have hce : createEventContextFrom st ev =
      { path := "", action := "", isub_ctx := none, rawMask := ev.mask } := by
    unfold createEventContextFrom
    rw [h]
  refine ⟨by rw [hce], by rw [hce], ?_⟩
  intro ec
  by_cases h1 : ev.mask &&& IN_Q_OVERFLOW ≠ 0
  · simp [runHandleRecord, h1]
  · by_cases h2 : ev.mask &&& IN_IGNORED ≠ 0
    · simp [runHandleRecord, h1, h2]
    · by_cases h3 : ev.mask &&& IN_MOVE_SELF ≠ 0
      · simp [runHandleRecord, h1, h2, h3]
      · by_cases h4 : ev.mask &&& IN_DELETE_SELF ≠ 0
        · simp [runHandleRecord, h1, h2, h3, h4]
        · simp [runHandleRecord, h1, h2, h3, h4, hce]

/-- C9 witness: on the empty watch table, a content-modify record on
descriptor 5 decodes blank and is not fired. -/
theorem c9_unknown_descriptor_witness :
    (createEventContextFrom ⟨[], [], []⟩ ⟨5, 2, 0, ""⟩).action = ""
    ∧ (createEventContextFrom ⟨[], [], []⟩ ⟨5, 2, 0, ""⟩).isub_ctx = none
    ∧ ∀ ec : EventCtx,
        (runHandleRecord ⟨[], [], []⟩ true ⟨5, 2, 0, ""⟩).2 ≠ RecAction.fired ec :=
  c9_unknown_descriptor ⟨[], [], []⟩ true ⟨5, 2, 0, ""⟩ rfl

/-- C2 counterexample: on a table tracking descriptor 7, a record with both
the attribute-change bit (IN_ATTRIB = 4) and the content-modify bit
(IN_MODIFY = 2) set is classified UPDATED, not ATTRIBUTES_MODIFIED as
claimed, because kMaskActions is a std::map iterated in ascending key order
and IN_MODIFY sorts before IN_ATTRIB. -/
theorem c2_counterexample :
    (createEventContextFrom ⟨[(7, 1)], [((1, 7), "/tmp/f")], []⟩
        ⟨7, IN_ATTRIB ||| IN_MODIFY, 0, ""⟩).action = "UPDATED"
    ∧ (createEventContextFrom ⟨[(7, 1)], [((1, 7), "/tmp/f")], []⟩
        ⟨7, IN_ATTRIB ||| IN_MODIFY, 0, ""⟩).action ≠ "ATTRIBUTES_MODIFIED" := by
  constructor <;> decide

/-- C2 (amended): for every record whose descriptor is in the watch table,
the normalized action is the kMaskActions entry of the first matching bit in
ascending numeric bit order (std::map iteration order): access ACCESSED,
content-modify UPDATED, attribute-change ATTRIBUTES_MODIFIED, write-close
UPDATED, open OPENED, moved-from MOVED_FROM, moved-to MOVED_TO, create
CREATED, delete DELETED; in particular a record with both the
attribute-change and content-modify bits set is classified UPDATED. -/
theorem c2_action_priority (st : WatchTables) (ev : InEvent) (sub : Nat)
    (h : lookupA ev.wd st.descSub = some sub) :
    (createEventContextFrom st ev).action = classifyMask kMaskActions ev.mask
    ∧ (∀ bit act, (bit, act) ∈ kMaskActions → ev.mask &&& bit ≠ 0 →
        (∀ bit1 act1, (bit1, act1) ∈ kMaskActions → bit1 < bit →
          ev.mask &&& bit1 = 0) →
        classifyMask kMaskActions ev.mask = act)
    ∧ classifyMask kMaskActions (IN_ATTRIB ||| IN_MODIFY) = "UPDATED" := by
  refine ⟨?_, ?_, by decide⟩
  · unfold createEventContextFrom
    rw [h]
  · intro bit act hmem hbit hlow
    simp only [kMaskActions, IN_ACCESS, IN_MODIFY, IN_ATTRIB, IN_CLOSE_WRITE,
      IN_OPEN, IN_MOVED_FROM, IN_MOVED_TO, IN_CREATE, IN_DELETE,
      List.mem_cons, List.not_mem_nil, or_false, Prod.mk.injEq] at hmem
    have low : ∀ b : Nat, b ∈ [1, 2, 4, 8, 32, 64, 128, 256, 512] → b < bit →
        ev.mask &&& b = 0 := by
      intro b hb hblt
      simp only [List.mem_cons, List.not_mem_nil, or_false] at hb
      rcases hb with rfl | rfl | rfl | rfl | rfl | rfl | rfl | rfl | rfl
      · exact hlow 1 "ACCESSED" (by decide) hblt
      · exact hlow 2 "UPDATED" (by decide) hblt
      · exact hlow 4 "ATTRIBUTES_MODIFIED" (by decide) hblt
      · exact hlow 8 "UPDATED" (by decide) hblt
      · exact hlow 32 "OPENED" (by decide) hblt
      · exact hlow 64 "MOVED_FROM" (by decide) hblt
      · exact hlow 128 "MOVED_TO" (by decide) hblt
      · exact hlow 256 "CREATED" (by decide) hblt
      · exact hlow 512 "DELETED" (by decide) hblt
    have nn : ∀ b : Nat, ev.mask &&& b = 0 → ¬ (ev.mask &&& b ≠ 0) :=
      fun b hb => not_ne_iff.mpr hb
    rcases hmem with hba | hba | hba | hba | hba | hba | hba | hba | hba <;>
      obtain ⟨rfl, rfl⟩ := hba <;>
      simp only [classifyMask, kMaskActions, IN_ACCESS, IN_MODIFY, IN_ATTRIB,
        IN_CLOSE_WRITE, IN_OPEN, IN_MOVED_FROM, IN_MOVED_TO, IN_CREATE,
        IN_DELETE]
    · rw [if_pos hbit]
    · rw [if_neg (nn 1 (low 1 (by decide) (by decide))), if_pos hbit]
    · rw [if_neg (nn 1 (low 1 (by decide) (by decide))),
        if_neg (nn 2 (low 2 (by decide) (by decide))), if_pos hbit]
    · rw [if_neg (nn 1 (low 1 (by decide) (by decide))),
        if_neg (nn 2 (low 2 (by decide) (by decide))),
        if_neg (nn 4 (low 4 (by decide) (by decide))), if_pos hbit]
    · rw [if_neg (nn 1 (low 1 (by decide) (by decide))),
        if_neg (nn 2 (low 2 (by decide) (by decide))),
        if_neg (nn 4 (low 4 (by decide) (by decide))),
        if_neg (nn 8 (low 8 (by decide) (by decide))), if_pos hbit]
    · rw [if_neg (nn 1 (low 1 (by decide) (by decide))),
        if_neg (nn 2 (low 2 (by decide) (by decide))),
        if_neg (nn 4 (low 4 (by decide) (by decide))),
        if_neg (nn 8 (low 8 (by decide) (by decide))),
        if_neg (nn 32 (low 32 (by decide) (by decide))), if_pos hbit]
    · rw [if_neg (nn 1 (low 1 (by decide) (by decide))),
        if_neg (nn 2 (low 2 (by decide) (by decide))),
        if_neg (nn 4 (low 4 (by decide) (by decide))),
        if_neg (nn 8 (low 8 (by decide) (by decide))),
        if_neg (nn 32 (low 32 (by decide) (by decide))),
        if_neg (nn 64 (low 64 (by decide) (by decide))), if_pos hbit]
    · rw [if_neg (nn 1 (low 1 (by decide) (by decide))),
        if_neg (nn 2 (low 2 (by decide) (by decide))),
        if_neg (nn 4 (low 4 (by decide) (by decide))),
        if_neg (nn 8 (low 8 (by decide) (by decide))),
        if_neg (nn 32 (low 32 (by decide) (by decide))),
        if_neg (nn 64 (low 64 (by decide) (by decide))),
        if_neg (nn 128 (low 128 (by decide) (by decide))), if_pos hbit]
    · rw [if_neg (nn 1 (low 1 (by decide) (by decide))),
        if_neg (nn 2 (low 2 (by decide) (by decide))),
        if_neg (nn 4 (low 4 (by decide) (by decide))),
        if_neg (nn 8 (low 8 (by decide) (by decide))),
        if_neg (nn 32 (low 32 (by decide) (by decide))),
        if_neg (nn 64 (low 64 (by decide) (by decide))),
        if_neg (nn 128 (low 128 (by decide) (by decide))),
        if_neg (nn 256 (low 256 (by decide) (by decide))), if_pos hbit]


/-- C2 witness: on a table tracking descriptor 7, a record with only the
attribute-change bit is classified through classifyMask, whose first match in
ascending bit order is ATTRIBUTES_MODIFIED here; and the particular two-bit
record is UPDATED. -/
theorem c2_action_priority_witness :
    (createEventContextFrom ⟨[(7, 1)], [((1, 7), "/tmp/f")], []⟩
        ⟨7, IN_ATTRIB, 0, ""⟩).action = classifyMask kMaskActions IN_ATTRIB
    ∧ classifyMask kMaskActions IN_ATTRIB = "ATTRIBUTES_MODIFIED"
    ∧ classifyMask kMaskActions (IN_ATTRIB ||| IN_MODIFY) = "UPDATED" :=
  ⟨(c2_action_priority ⟨[(7, 1)], [((1, 7), "/tmp/f")], []⟩
      ⟨7, IN_ATTRIB, 0, ""⟩ 1 (by decide)).1,
   (c2_action_priority ⟨[(7, 1)], [((1, 7), "/tmp/f")], []⟩
      ⟨7, IN_ATTRIB, 0, ""⟩ 1 (by decide)).2.1 IN_ATTRIB "ATTRIBUTES_MODIFIED"
      (by decide) (by decide) (fun bit1 act1 hm hlt => by
        revert hm hlt
        simp only [kMaskActions, IN_ACCESS, IN_MODIFY, IN_ATTRIB, IN_CLOSE_WRITE,
          IN_OPEN, IN_MOVED_FROM, IN_MOVED_TO, IN_CREATE, IN_DELETE,
          List.mem_cons, List.not_mem_nil, or_false, Prod.mk.injEq]
        intro hm hlt
        rcases hm with hc | hc | hc | hc | hc | hc | hc | hc | hc <;>
          obtain ⟨rfl, rfl⟩ := hc <;>
          first | decide | omega),
   (c2_action_priority ⟨[(7, 1)], [((1, 7), "/tmp/f")], []⟩
      ⟨7, IN_ATTRIB, 0, ""⟩ 1 (by decide)).2.2⟩

/-- C3 counterexample: on a table tracking descriptor 5 for path /tmp/d/, a
record with the self-moved bit IN_MOVE_SELF removes the table entry but DOES
invoke the kernel removal call (removeMonitor is called with force = true),
refuting the claim that inotify_rm_watch is not called for that
descriptor. -/
theorem c3_counterexample :
    (runHandleRecord ⟨[(5, 1)], [((1, 5), "/tmp/d/")], [("/tmp/d/", 5)]⟩ true
        ⟨5, IN_MOVE_SELF, 0, ""⟩).2 = RecAction.monitorRemoved true
    ∧ (runHandleRecord ⟨[(5, 1)], [((1, 5), "/tmp/d/")], [("/tmp/d/", 5)]⟩ true
        ⟨5, IN_MOVE_SELF, 0, ""⟩).2 ≠ RecAction.monitorRemoved false
    ∧ lookupA 5 (runHandleRecord ⟨[(5, 1)], [((1, 5), "/tmp/d/")], [("/tmp/d/", 5)]⟩
        true ⟨5, IN_MOVE_SELF, 0, ""⟩).1.descSub = none := by
  refine ⟨by decide, by decide, by decide⟩

/-- C3 (amended): a self-moved record on a tracked descriptor removes the
watch-table entry AND issues the kernel watch-removal call (the run loop
calls removeMonitor with force = true, and removeMonitor invokes
inotify_rm_watch exactly when force is set), since the watch is still valid
in the kernel. -/
theorem c3_move_self (st : WatchTables) (strict : Bool) (ev : InEvent) (sub : Nat)
    (h1 : ev.mask &&& IN_Q_OVERFLOW = 0) (h2 : ev.mask &&& IN_IGNORED = 0)
    (h3 : ev.mask &&& IN_MOVE_SELF ≠ 0)
    (h4 : lookupA ev.wd st.descSub = some sub) :
    lookupA ev.wd (runHandleRecord st strict ev).1.descSub = none
    ∧ (runHandleRecord st strict ev).2 = RecAction.monitorRemoved true := by
  have hrm : removeMonitor st strict ev.wd true false =
      { tables :=
          { descSub := eraseA ev.wd st.descSub,
            descPath := eraseA (sub, ev.wd) st.descPath,
            pathDesc := if strict then
                eraseA ((lookupA (sub, ev.wd) st.descPath).getD "") st.pathDesc
              else st.pathDesc },
        returned := true,
        rmWatchCalled := true } := by
    simp [removeMonitor, h4]
  have hrun : runHandleRecord st strict ev =
      ((removeMonitor st strict ev.wd true false).tables,
       .monitorRemoved (removeMonitor st strict ev.wd true false).rmWatchCalled) := by
    unfold runHandleRecord
    rw [if_neg (not_ne_iff.mpr h1), if_neg (not_ne_iff.mpr h2), if_pos h3]
  rw [hrun, hrm]
  exact ⟨lookupA_eraseA_self ev.wd st.descSub, rfl⟩

/-- C3 witness: concrete self-moved record on tracked descriptor 5. -/
theorem c3_move_self_witness :
    lookupA 5 (runHandleRecord ⟨[(5, 1)], [((1, 5), "/x/")], [("/x/", 5)]⟩ true
        ⟨5, IN_MOVE_SELF, 0, ""⟩).1.descSub = none
    ∧ (runHandleRecord ⟨[(5, 1)], [((1, 5), "/x/")], [("/x/", 5)]⟩ true
        ⟨5, IN_MOVE_SELF, 0, ""⟩).2 = RecAction.monitorRemoved true :=
  c3_move_self ⟨[(5, 1)], [((1, 5), "/x/")], [("/x/", 5)]⟩ true
    ⟨5, IN_MOVE_SELF, 0, ""⟩ 1 (by decide) (by decide) (by decide) (by decide)

/-- C1: for a record that reaches the exclude filter of shouldFire (it
belongs to the subscription and passes the mask filter), membership of either
the containing directory or the full path in a non-empty exclude set drops
the record, and when both are absent the exclude filter does not drop it, so
the record fires (in particular events under sibling directories of an
excluded directory are still emitted). -/
theorem c1_exclude_filter (excl : List String) (scId : Nat) (sc : SubCtx)
    (ec : EventCtx)
    (hown : ec.isub_ctx = some scId)
    (hmask : sc.mask = 0 ∨ ec.rawMask &&& sc.mask ≠ 0) :
    ((excl ≠ [] ∧ (containingDir ec.path ∈ excl ∨ ec.path ∈ excl)) →
      shouldFire excl scId sc ec = false)
    ∧ ((containingDir ec.path ∉ excl ∧ ec.path ∉ excl) →
      shouldFire excl scId sc ec = true) := by
  have hown2 : ¬ (ec.isub_ctx ≠ some scId) := not_ne_iff.mpr hown
  have hmask2 : ¬ (sc.mask ≠ 0 ∧ ec.rawMask &&& sc.mask = 0) := by
    rcases hmask with hm | hm
    · exact fun hx => hx.1 hm
    · exact fun hx => hm hx.2
  constructor
  · rintro ⟨hne, hmem⟩
    rw [shouldFire, if_neg hown2, if_neg hmask2, if_pos]
    refine ⟨hne, ?_⟩
    rcases hmem with hm | hm <;> simp [excludeFind, hm]
  · rintro ⟨hdir, hpath⟩
    rw [shouldFire, if_neg hown2, if_neg hmask2, if_neg]
    rintro ⟨hne, hor⟩
    simp only [excludeFind, Bool.or_eq_true, decide_eq_true_eq] at hor
    rcases hor with hm | hm
    · exact hdir hm
    · exact hpath hm

/-- C1 witness: with exclude set containing /tmp/excl, an event on
/tmp/excl/f (whose containing directory is /tmp/excl) is dropped, while an
event on /tmp/sib/f under a sibling directory fires. -/
theorem c1_exclude_filter_witness :
    shouldFire ["/tmp/excl"] 1 ⟨"/tmp/", 0, false, false⟩
      ⟨"/tmp/excl/f", "UPDATED", some 1, 2⟩ = false
    ∧ shouldFire ["/tmp/excl"] 1 ⟨"/tmp/", 0, false, false⟩
      ⟨"/tmp/sib/f", "UPDATED", some 1, 2⟩ = true :=
  ⟨(c1_exclude_filter ["/tmp/excl"] 1 ⟨"/tmp/", 0, false, false⟩
      ⟨"/tmp/excl/f", "UPDATED", some 1, 2⟩ rfl (Or.inl rfl)).1
      ⟨by decide, Or.inl (by decide)⟩,
   (c1_exclude_filter ["/tmp/excl"] 1 ⟨"/tmp/", 0, false, false⟩
      ⟨"/tmp/sib/f", "UPDATED", some 1, 2⟩ rfl (Or.inl rfl)).2
      ⟨by decide, by decide⟩⟩

/-- C5 counterexample: with the root directory watched under the key "/",
the file /f (not a directory, lying directly under "/": "/" ++ "f" = "/f",
and its containing directory "/" is tracked) is reported NOT monitored,
because the source looks up parent_path("/f") + '/' = "//", refuting the
claim that isPathMonitored is true for every file whose containing directory
is tracked. -/
theorem c5_counterexample :
    isPathMonitored (fun p => decide (p = "/")) [("/", 3)] "/f" = false
    ∧ lookupA "/" [(("/" : String), (3 : Int))] = some 3
    ∧ (fun p => decide (p = "/")) "/f" = false
    ∧ ("/" : String) ++ "f" = "/f"
    ∧ parentSlash "/f" = "//" := by
  refine ⟨by decide, by decide, by decide, by decide, by decide⟩

/-- C5 (amended): isPathMonitored returns true exactly when the path has its
own entry in the path-to-descriptor table, or the path is not a directory
and the lookup key parent_path(path) + slash has an entry.  Because boost
parent_path of a root-level file is the root string, that key doubles the
separator (for "/f" it is "//"), so a file directly under a root watched as
"/" is NOT reported monitored; for ordinary paths (watched directories
stored with a single trailing slash, no doubled separators) this is the
claimed behavior: true on an exact file match, on a watched directory path
and on a file under a watched parent directory, false otherwise. -/
theorem c5_isPathMonitored (isDir : String → Bool) (pathDesc : List (String × Int))
    (path : String) :
    isPathMonitored isDir pathDesc path = true ↔
      specIsMonitored isDir pathDesc path := by
  unfold isPathMonitored specIsMonitored
  cases hd : isDir path <;>
    cases h1 : (lookupA path pathDesc).isSome <;>
      simp [hd, h1]

/-- Shape of the subscription context returned by monitorSubscription: the
recursive flag is whatever the recursive-marker strip produced, and the
stored path is the stripped path, possibly with one trailing slash appended
by the normalization step. -/
theorem monSub_sc_shape (env : Env) (sc0 : SubCtx) :
    (monitorSubscription env sc0).sc.recursive = (stripRecursiveMarker sc0).recursive
    ∧ ((monitorSubscription env sc0).sc.path = (stripRecursiveMarker sc0).path
       ∨ (monitorSubscription env sc0).sc.path = (stripRecursiveMarker sc0).path ++ "/") := by
  unfold monitorSubscription monFinish
  dsimp only
  split_ifs <;> simp

/-- C6: a subscription whose pattern contains the recursive two-star marker
gets its recursive flag set and its stored pattern replaced by the prefix
strictly before the first marker occurrence, and the retained pattern (both
right after the strip and at the end of monitorSubscription) holds no marker
anymore. -/
theorem c6_recursive_marker (env : Env) (sc : SubCtx) (i : Nat)
    (h : starStarIdx sc.path.data = some i) :
    (stripRecursiveMarker sc).recursive = true
    ∧ (stripRecursiveMarker sc).path = ⟨sc.path.data.take i⟩
    ∧ hasStarStar (stripRecursiveMarker sc).path.data = false
    ∧ (monitorSubscription env sc).sc.recursive = true
    ∧ hasStarStar (monitorSubscription env sc).sc.path.data = false := by
  have h1 : stripRecursiveMarker sc =
      { sc with recursive := true, path := ⟨sc.path.data.take i⟩ } := by
    unfold stripRecursiveMarker
    rw [h]
  have hss : hasStarStar (sc.path.data.take i) = false := starStarIdx_take _ i h
  have hshape := monSub_sc_shape env sc
  refine ⟨by rw [h1], by rw [h1], by rw [h1]; exact hss, ?_, ?_⟩
  · rw [hshape.1, h1]
  · rcases hshape.2 with hp | hp
    · rw [hp, h1]
      exact hss
    · rw [hp, h1]
      have hdata : ((⟨sc.path.data.take i⟩ : String) ++ "/").data
          = sc.path.data.take i ++ ['/'] := rfl
      rw [hdata, hasStarStar_append_nonstar _ _ (by decide)]
      exact hss

/-- C6 witness: the pattern /etc/ followed by the two-star marker (first
marker occurrence at index 5). -/
theorem c6_recursive_marker_witness :
    (stripRecursiveMarker ⟨"/etc/**", 0, false, false⟩).recursive = true
    ∧ (stripRecursiveMarker ⟨"/etc/**", 0, false, false⟩).path
        = ⟨("/etc/**" : String).data.take 5⟩
    ∧ hasStarStar (stripRecursiveMarker ⟨"/etc/**", 0, false, false⟩).path.data = false
    ∧ (monitorSubscription ⟨fun _ => false, fun _ => []⟩
        ⟨"/etc/**", 0, false, false⟩).sc.recursive = true
    ∧ hasStarStar (monitorSubscription ⟨fun _ => false, fun _ => []⟩
        ⟨"/etc/**", 0, false, false⟩).sc.path.data = false :=
  c6_recursive_marker ⟨fun _ => false, fun _ => []⟩ ⟨"/etc/**", 0, false, false⟩ 5
    (by decide)

/-- C7: for a pattern that contains a star, no two-star marker, and whose
parent part holds no star (so the wildcard sits only in the final segment),
monitorSubscription requests exactly one watch, on the parent directory with
a trailing separator, leaves the stored wildcarded pattern unchanged, and
does not enter the interior-wildcard expansion. -/
theorem c7_leaf_wildcard (env : Env) (sc : SubCtx)
    (hstar : ('*' : Char) ∈ sc.path.data)
    (hnoss : hasStarStar sc.path.data = false)
    (hparent : ('*' : Char) ∉ (parentSlash sc.path).data) :
    (monitorSubscription env sc).requests = [parentSlash sc.path]
    ∧ (monitorSubscription env sc).sc.path = sc.path
    ∧ (monitorSubscription env sc).resolved = none := by
  have hstrip : stripRecursiveMarker sc = sc := by
    unfold stripRecursiveMarker
    rw [starStarIdx_none_of_not _ hnoss]
  have hfn : ('*' : Char) ∈ (filenameOf sc.path).data := by
    show ('*' : Char) ∈ afterLastSlash sc.path.data
    by_cases hsl : ('/' : Char) ∈ sc.path.data
    · have hbefore : ('*' : Char) ∉ beforeLastSlash sc.path.data := by
        intro hmem
        exact hparent (List.mem_append.mpr (Or.inl
          (mem_parentPathB_of_mem_before sc.path.data (by decide) hsl hmem)))
      have hsplit := beforeAfter_split sc.path.data hsl
      rw [hsplit] at hstar
      rcases List.mem_append.mp hstar with hm | hm
      · exact absurd hm hbefore
      · rcases List.mem_cons.mp hm with hm1 | hm1
        · exact absurd hm1 (by decide)
        · exact hm1
    · rw [afterLastSlash_of_no_slash _ hsl]
      exact hstar
  have hstar2 : hasStar sc.path.data = true := by
    simpa [hasStar] using hstar
  have hfn2 : hasStar (filenameOf sc.path).data = true := by
    simpa [hasStar] using hfn
  have hpar2 : hasStar (parentSlash sc.path).data = false := by
    simpa [hasStar] using hparent
  have heq : monitorSubscription env sc = monFinish env sc (parentSlash sc.path) := by
    unfold monitorSubscription
    rw [hstrip]
    simp [hstar2, hfn2, hpar2]
  have hlast : (parentSlash sc.path).data.getLast? = some '/' :=
    getLast?_append_one (parentPathB sc.path.data) '/'
  rw [heq]
  unfold monFinish
  rw [if_neg (by simp [hlast])]
  exact ⟨rfl, rfl, rfl⟩

/-- C7 witness: the pattern /etc/cron followed by a star resolves to one
watch request on /etc/ and keeps the wildcarded pattern. -/
theorem c7_leaf_wildcard_witness :
    (monitorSubscription ⟨fun _ => true, fun _ => []⟩
        ⟨"/etc/cron*", 0, false, false⟩).requests
      = [parentSlash "/etc/cron*"]
    ∧ (monitorSubscription ⟨fun _ => true, fun _ => []⟩
        ⟨"/etc/cron*", 0, false, false⟩).sc.path = "/etc/cron*"
    ∧ (monitorSubscription ⟨fun _ => true, fun _ => []⟩
        ⟨"/etc/cron*", 0, false, false⟩).resolved = none :=
  c7_leaf_wildcard ⟨fun _ => true, fun _ => []⟩ ⟨"/etc/cron*", 0, false, false⟩
    (by decide) (by decide) (by decide)

/-- C8: installing a watch when the kernel returns a descriptor that is
already tracked retires the previous table entries before recording the new
ones: afterward the descriptor maps to exactly one subscription and one path
(given that before the call only the recorded owner held a descriptor-path
entry for it), and in sanity-check mode the installed path maps to exactly
one live descriptor. -/
theorem c8_addMonitor_replaces (st : WatchTables) (strict : Bool) (watch : Int)
    (path : String) (sub oldSub : Nat) (add_watch : Bool)
    (hW : watch ≠ -1)
    (hfound : lookupA watch st.descSub = some oldSub)
    (hcoh : ∀ s : Nat, s ≠ oldSub → lookupA (s, watch) st.descPath = none) :
    lookupA watch (addMonitorStep st strict watch path sub add_watch).1.descSub
        = some sub
    ∧ countA watch (addMonitorStep st strict watch path sub add_watch).1.descSub = 1
    ∧ lookupA (sub, watch) (addMonitorStep st strict watch path sub add_watch).1.descPath
        = some path
    ∧ countA (sub, watch) (addMonitorStep st strict watch path sub add_watch).1.descPath = 1
    ∧ (∀ s : Nat, s ≠ sub →
        lookupA (s, watch) (addMonitorStep st strict watch path sub add_watch).1.descPath
          = none)
    ∧ (strict = true →
        lookupA path (addMonitorStep st strict watch path sub add_watch).1.pathDesc
            = some watch
        ∧ countA path (addMonitorStep st strict watch path sub add_watch).1.pathDesc = 1) := by
  have hni : ¬ (add_watch = true ∧ watch = -1) := fun hx => hW hx.2
  cases strict with
  | false =>
    have hstep : (addMonitorStep st false watch path sub add_watch).1 =
        { descSub := insertA watch sub (eraseA watch st.descSub),
          descPath := insertA (sub, watch) path (eraseA (oldSub, watch) st.descPath),
          pathDesc := st.pathDesc } := by
      unfold addMonitorStep
      rw [if_neg hni, hfound]
      rfl
    refine ⟨?_, ?_, ?_, ?_, ?_, fun hx => absurd hx (by decide)⟩
    · rw [hstep]; exact lookupA_insertA_self _ _ _
    · rw [hstep]; exact countA_insertA_self _ _ _
    · rw [hstep]; exact lookupA_insertA_self _ _ _
    · rw [hstep]; exact countA_insertA_self _ _ _
    · intro s hsne
      rw [hstep]
      show lookupA (s, watch)
        (insertA (sub, watch) path (eraseA (oldSub, watch) st.descPath)) = none
      rw [lookupA_insertA_ne _ _ (by simp [hsne])]
      by_cases hso : s = oldSub
      · subst hso
        exact lookupA_eraseA_self _ _
      · rw [lookupA_eraseA_ne _ (by simp [hso])]
        exact hcoh s hso
  | true =>
    have hstep : (addMonitorStep st true watch path sub add_watch).1 =
        { descSub := insertA watch sub (eraseA watch st.descSub),
          descPath := insertA (sub, watch) path (eraseA (oldSub, watch) st.descPath),
          pathDesc := insertA path watch
            (eraseA ((lookupA (oldSub, watch) st.descPath).getD "") st.pathDesc) } := by
      unfold addMonitorStep
      rw [if_neg hni, hfound]
      rfl
    refine ⟨?_, ?_, ?_, ?_, ?_, fun _ => ⟨?_, ?_⟩⟩
    · rw [hstep]; exact lookupA_insertA_self _ _ _
    · rw [hstep]; exact countA_insertA_self _ _ _
    · rw [hstep]; exact lookupA_insertA_self _ _ _
    · rw [hstep]; exact countA_insertA_self _ _ _
    · intro s hsne
      rw [hstep]
      show lookupA (s, watch)
        (insertA (sub, watch) path (eraseA (oldSub, watch) st.descPath)) = none
      rw [lookupA_insertA_ne _ _ (by simp [hsne])]
      by_cases hso : s = oldSub
      · subst hso
        exact lookupA_eraseA_self _ _
      · rw [lookupA_eraseA_ne _ (by simp [hso])]
        exact hcoh s hso
    · rw [hstep]; exact lookupA_insertA_self _ _ _
    · rw [hstep]; exact countA_insertA_self _ _ _

/-- C8 witness: re-installing path /w/ for subscription 2 when descriptor 9
is already owned by subscription 1. -/
theorem c8_addMonitor_replaces_witness :
    lookupA 9 (addMonitorStep ⟨[(9, 1)], [((1, 9), "/w/")], [("/w/", 9)]⟩ true 9
        "/w/" 2 true).1.descSub = some 2
    ∧ countA 9 (addMonitorStep ⟨[(9, 1)], [((1, 9), "/w/")], [("/w/", 9)]⟩ true 9
        "/w/" 2 true).1.descSub = 1
    ∧ lookupA (2, 9) (addMonitorStep ⟨[(9, 1)], [((1, 9), "/w/")], [("/w/", 9)]⟩ true 9
        "/w/" 2 true).1.descPath = some "/w/"
    ∧ countA (2, 9) (addMonitorStep ⟨[(9, 1)], [((1, 9), "/w/")], [("/w/", 9)]⟩ true 9
        "/w/" 2 true).1.descPath = 1
    ∧ (∀ s : Nat, s ≠ 2 →
        lookupA (s, 9) (addMonitorStep ⟨[(9, 1)], [((1, 9), "/w/")], [("/w/", 9)]⟩ true 9
          "/w/" 2 true).1.descPath = none)
    ∧ (true = true →
        lookupA "/w/" (addMonitorStep ⟨[(9, 1)], [((1, 9), "/w/")], [("/w/", 9)]⟩ true 9
            "/w/" 2 true).1.pathDesc = some 9
        ∧ countA "/w/" (addMonitorStep ⟨[(9, 1)], [((1, 9), "/w/")], [("/w/", 9)]⟩ true 9
            "/w/" 2 true).1.pathDesc = 1) :=
  c8_addMonitor_replaces ⟨[(9, 1)], [((1, 9), "/w/")], [("/w/", 9)]⟩ true 9 "/w/" 2 1
    true (by decide) (by decide)
    (fun s hs => by simp [lookupA, Prod.mk.injEq, hs])

end INotify
